import Mathlib

/-!
Shallow embedding of `src/coronavirus.py` (a small web-scraping pipeline)
and proofs about the claims of its specification.

Modelling conventions:
* Python machine floats are modelled by exact rationals (`ℚ`); `round(x, 1)`
  is modelled by round-half-to-even at one decimal place, Python's rounding
  convention, on the exact rational value.
* Python exceptions are modelled by an explicit error type `PyError`;
  a Python function that can raise returns `Except PyError _` (or, for the
  whole run, a result paired with an optional error).
* A parsed HTML document is modelled as its list of relevant nodes in
  document order (anchors, table cells, anything else); `find_next('td')`
  is the first `td` node strictly after a position.
* The regex matching performed by `re.compile(search_term, re.IGNORECASE)`
  together with bs4's `find_all('a', string=regex)` is abstracted as an
  arbitrary boolean predicate on the anchor's text.
* Network fetches for per-country enrichment (`get_population` over the
  fixed population page, `get_first_paragraph` over the country page) are
  abstracted as oracle functions passed to the main loop; the functions
  themselves are also modelled directly over their document inputs.
* The file system is a list of (file name, contents) pairs; `open(_, 'x')`
  fails when the name is already present.
-/

/-! ## Errors and basic values -/

/-- Python exceptions relevant to `coronavirus.py`, plus the two typed
errors that the specification names (`NotFoundError`, `InvalidInputError`)
so that claims about them can be stated; the code itself never raises
those two. -/
inductive PyError where
  | attributeError
  | valueError
  | indexError
  | zeroDivisionError
  | fileExistsError
  | notFoundError
  | invalidInputError
deriving DecidableEq, Repr

instance {ε α : Type} [DecidableEq ε] [DecidableEq α] :
    DecidableEq (Except ε α) := fun a b =>
  match a, b with
  | .ok x, .ok y =>
      if h : x = y then .isTrue (congrArg Except.ok h)
      else .isFalse fun hh => h (Except.ok.inj hh)
  | .error x, .error y =>
      if h : x = y then .isTrue (congrArg Except.error h)
      else .isFalse fun hh => h (Except.error.inj hh)
  | .ok _, .error _ => .isFalse fun hh => Except.noConfusion hh
  | .error _, .ok _ => .isFalse fun hh => Except.noConfusion hh

/-- Floor of a rational as an integer, computably (`Int.fdiv` is floor
division). -/
def ratFloor (q : ℚ) : ℤ := Int.fdiv q.num q.den

/-- Round a rational to the nearest integer, ties to even: Python's
`round` convention on exact values. -/
def roundHalfEven (q : ℚ) : ℤ :=
  if q - (ratFloor q : ℚ) < 1/2 then ratFloor q
  else if (1/2 : ℚ) < q - (ratFloor q : ℚ) then ratFloor q + 1
  else if ratFloor q % 2 = 0 then ratFloor q else ratFloor q + 1

/-- Python's `round(x, 1)`: round to one decimal place. -/
def roundTo1 (q : ℚ) : ℚ := (roundHalfEven (q * 10) : ℚ) / 10

/-- `calculate_per_100000_stat` (src/coronavirus.py lines 94-104).
`if stat == 0: return 0.0`; otherwise
`converted_population = population / 100000` (exact division here, inlined
below) and `round(stat / converted_population, 1)`.  Dividing by a zero
`converted_population` raises `ZeroDivisionError` in Python, modelled by
the middle branch. -/
def calculate_per_100000_stat (population stat : ℤ) : Except PyError ℚ :=
  if stat = 0 then .ok 0
  else if ((population : ℚ) / 100000) = 0 then .error .zeroDivisionError
  else .ok (roundTo1 ((stat : ℚ) / ((population : ℚ) / 100000)))

/-! ## Document model -/

/-- A node of a parsed HTML document, in document order: an anchor with
its visible text and optional link target, a table cell with its text, or
any other element. -/
inductive Node where
  | a (text : String) (href : Option String)
  | td (text : String)
  | other
deriving DecidableEq, Repr

/-- Strip thousands separators: Python's `.replace(",", "")`. -/
def stripCommas (s : String) : String := String.mk (s.data.filter (fun c => c ≠ ','))

/-- `isPre pat cs`: `pat` is a leading piece of `cs` (character lists). -/
def isPre : List Char → List Char → Bool
  | [], _ => true
  | _ :: _, [] => false
  | a :: as, b :: bs => a == b && isPre as bs

/-- Python's `s.startswith(pat)`. -/
def strStarts (s pat : String) : Bool := isPre pat.data s.data

/-- Parse a digit run as a natural number accumulator. -/
def parseDigits : List Char → Nat → Option Nat
  | [], acc => some acc
  | c :: rest, acc =>
      if '0' ≤ c ∧ c ≤ '9' then
        parseDigits rest (acc * 10 + (c.toNat - 48))
      else none

/-- Python's `int(...)` applied to a table cell after stripping commas:
an optional sign followed by at least one digit, otherwise `ValueError`
(modelled as `none`). -/
def parseCell (s : String) : Option ℤ :=
  match (stripCommas s).data with
  | [] => none
  | '-' :: rest =>
      match rest with
      | [] => none
      | _ => (parseDigits rest 0).map (fun n => -(n : ℤ))
  | cs => (parseDigits cs 0).map (fun n => (n : ℤ))

/-- bs4's `find_next('td')` from a position: the first `td` node strictly
after it, returned with the remaining nodes after that `td`. -/
def nextTd : List Node → Option (String × List Node)
  | [] => none
  | .td t :: rest => some (t, rest)
  | _ :: rest => nextTd rest

/-- The address convention for a country detail page for year 2020
(src/coronavirus.py line 31). -/
def wikiPre : String := "/wiki/2020_coronavirus_pandemic_in_"

/-- Base address used by `urljoin` (src/coronavirus.py line 37). -/
def wikiBase : String := "https://en.wikipedia.org"

/-- `urllib.parse.urljoin` restricted to the use in this program: the
joined link target always begins with `/wiki/`, so joining is
concatenation onto the base address. -/
def urljoin (base href : String) : String := base ++ href

/-! ## CountryRowExtractor (src/coronavirus.py lines 29-38) -/

/-- A per-country row extracted from the pandemic table. -/
structure CountryEntry where
  name : String
  cases : ℤ
  deaths : ℤ
  href : String
deriving DecidableEq, Repr

/-- The extraction part of the loop of `country_coronavirus_stats`
(src/coronavirus.py lines 29-38): for each anchor whose text matches the
search regex, skip it unless its link target starts with `wikiPre`
(line 30-32; a missing target makes `None.startswith` raise
`AttributeError`); otherwise read the next two `td` cells as cases and
deaths (lines 34-36), stripping commas before `int` parsing.  A missing
cell raises `AttributeError`, a non-numeric cell `ValueError`. -/
def extractEntries (m : String → Bool) : List Node → Except PyError (List CountryEntry)
  | [] => .ok []
  | .a t ho :: rest =>
      if m t then
        match ho with
        | none => .error .attributeError
        | some hr =>
          if strStarts hr wikiPre then
            match nextTd rest with
            | none => .error .attributeError
            | some (c1, r1) =>
              match parseCell c1 with
              | none => .error .valueError
              | some cs =>
                match nextTd r1 with
                | none => .error .attributeError
                | some (c2, _) =>
                  match parseCell c2 with
                  | none => .error .valueError
                  | some ds =>
                    (extractEntries m rest).map
                      (fun es => CountryEntry.mk t cs ds hr :: es)
          else extractEntries m rest
      else extractEntries m rest
  | _ :: rest => extractEntries m rest

/-! ## SummaryParagraphFetcher (src/coronavirus.py lines 67-77) -/

/-- The test `re.match(r'..*\n', text)` of src/coronavirus.py line 76:
the pattern matches exactly when the text starts with a non-newline
character and a newline occurs somewhere after it. -/
def pMatches (s : String) : Bool :=
  match s.data with
  | [] => false
  | c :: rest => c != '\n' && rest.contains '\n'

/-- `get_first_paragraph` (src/coronavirus.py lines 73-77), over the list
of paragraph texts of the fetched page in document order: return the text
of the first paragraph matching `..*\n`, or `None` when no paragraph
matches. -/
def get_first_paragraph (paras : List String) : Option String :=
  paras.find? pMatches

/-- The qualification criterion of line 76 stated structurally: the text
is nonempty, its first character is not a newline, and a newline occurs
among the remaining characters. -/
def pQualifies (s : String) : Prop :=
  s.data ≠ [] ∧ s.data.head? ≠ some '\n' ∧ '\n' ∈ s.data.tail

instance (s : String) : Decidable (pQualifies s) := by
  unfold pQualifies
  infer_instance

/-! ## PopulationLookup (src/coronavirus.py lines 80-91) -/

/-- Anchors of a node list whose text matches, each paired with its
optional link target and the nodes after it (bs4
`find_all('a', string=regex)`). -/
def anchorsMatched (m : String → Bool) : List Node → List (String × Option String × List Node)
  | [] => []
  | .a t ho :: rest =>
      if m t then (t, ho, rest) :: anchorsMatched m rest
      else anchorsMatched m rest
  | _ :: rest => anchorsMatched m rest

/-- `get_population` (src/coronavirus.py lines 86-91) over the population
page modelled as its list of tables, each a node list.  Takes the first
table (`soup('table')[0]`; `IndexError` when there is none), collects the
anchors matching the country regex, indexes the first
(`country_row[0]`; `IndexError` when no anchor matched), and parses the
next `td` cell with commas stripped. -/
def get_population (m : String → Bool) (popDoc : List (List Node)) : Except PyError ℤ :=
  match popDoc with
  | [] => .error .indexError
  | table :: _ =>
    match anchorsMatched m table with
    | [] => .error .indexError
    | (_, _, rest) :: _ =>
      match nextTd rest with
      | none => .error .attributeError
      | some (t, _) =>
        match parseCell t with
        | none => .error .valueError
        | some v => .ok v

/-! ## ReportAssembler and output (src/coronavirus.py lines 15-48, 107-129) -/

/-- The per-country value stored in the `countries` dictionary
(src/coronavirus.py lines 44-46): the population and the two counts
already formatted with thousands separators, the two rates, and the
optional first paragraph (`None` becomes the absent marker). -/
structure Report where
  population : String
  cases : String
  deaths : String
  casesPer100k : ℚ
  deathsPer100k : ℚ
  firstParagraph : Option String
deriving DecidableEq, Repr

/-- Digit grouping for Python's format specifier `:,`: the input is the
reversed digit list; a comma is inserted after every three digits. -/
def group3 : List Char → List Char
  | a :: b :: c :: d :: rest => a :: b :: c :: ',' :: group3 (d :: rest)
  | cs => cs

/-- Python's `f'{n:,}'` on an integer: thousands separators. -/
def commaFmt (n : ℤ) : String :=
  (if n < 0 then "-" else "") ++
    String.mk ((group3 (toString n.natAbs).data.reverse).reverse)

/-- Python's `str` on a one-decimal float as produced by `round(_, 1)`:
the integer part, a dot, and the tenths digit. -/
def showRate (q : ℚ) : String :=
  toString (ratFloor (q * 10) / 10) ++ "." ++
    toString ((ratFloor (q * 10)) % 10).natAbs

/-- Python's format `:>w`: right-justify in `w` columns with spaces. -/
def rjust (w : Nat) (s : String) : String :=
  String.mk (List.replicate (w - s.length) ' ') ++ s

/-- One output block (src/coronavirus.py lines 121-129). -/
def renderReport (name : String) (r : Report) : String :=
  "Country: " ++ name ++ "\n" ++
  "Population:" ++ rjust 30 r.population ++ "\n" ++
  "Total Confirmed Cases:" ++ rjust 19 r.cases ++ "\n" ++
  "Total Deaths:" ++ rjust 28 r.deaths ++ "\n" ++
  "Cases per 100,000 people:" ++ rjust 18 (showRate r.casesPer100k) ++ "\n" ++
  "Deaths per 100,000 people:" ++ rjust 17 (showRate r.deathsPer100k) ++ "\n" ++
  (match r.firstParagraph with
   | some s => s
   | none => "None") ++ "\n\n"

/-- The whole file contents: the blocks in dictionary iteration order. -/
def renderAll (countries : List (String × Report)) : String :=
  countries.foldl (fun acc p => acc ++ renderReport p.1 p.2) ""

/-- The file system: file names with their contents, in creation order. -/
abbrev Fs := List (String × String)

def lookupFs : Fs → String → Option String
  | [], _ => none
  | p :: rest, name => if p.1 == name then some p.2 else lookupFs rest name

def writeFs (fs : Fs) (name content : String) : Fs := fs ++ [(name, content)]

/-- `create_summary_file` (src/coronavirus.py lines 107-129): open
`{search_term}summary.txt` in exclusive-creation mode `'x'`
(`FileExistsError` when the name already exists, leaving the file system
unchanged), then write one block per country in dictionary order.  The
result is the final file system paired with the raised error, if any. -/
def create_summary_file (fs : Fs) (term : String)
    (countries : List (String × Report)) : Fs × Option PyError :=
  if (lookupFs fs (term ++ "summary.txt")).isSome then
    (fs, some .fileExistsError)
  else
    (writeFs fs (term ++ "summary.txt") (renderAll countries), none)

/-- Key membership in the `countries` dictionary model. -/
def hasKey : List (String × Report) → String → Bool
  | [], _ => false
  | p :: rest, k => p.1 == k || hasKey rest k

/-- Replace the value at key `k` if this pair holds it. -/
def overwriteVal (k : String) (v : Report) (p : String × Report) :
    String × Report :=
  if p.1 == k then (k, v) else p

/-- Python 3.7+ dictionary assignment `d[k] = v`
(src/coronavirus.py line 44): an existing key keeps its position and gets
the new value; a new key is appended. -/
def dictInsert (acc : List (String × Report)) (k : String) (v : Report) :
    List (String × Report) :=
  if hasKey acc k then acc.map (overwriteVal k v)
  else acc ++ [(k, v)]

/-- Python dictionary lookup `d[k]`. -/
def lookupKey : List (String × Report) → String → Option Report
  | [], _ => none
  | p :: rest, k => if p.1 == k then some p.2 else lookupKey rest k

/-- The per-country enrichment of the loop body (src/coronavirus.py
lines 37-46): fetch the first paragraph of the joined country link, look
the population up, and compute the two per-100,000 rates; the first
failing step's error propagates.  `pf` abstracts `get_first_paragraph`
composed with the network fetch of the country page, `pl` abstracts
`get_population` over the fixed population page. -/
def enrichEntry (pl : String → Except PyError ℤ)
    (pf : String → Except PyError (Option String))
    (name hr : String) (cs ds : ℤ) : Except PyError Report :=
  match pf (urljoin wikiBase hr) with
  | .error e => .error e
  | .ok fp =>
    match pl name with
    | .error e => .error e
    | .ok population =>
      match calculate_per_100000_stat population cs with
      | .error e => .error e
      | .ok cp =>
        match calculate_per_100000_stat population ds with
        | .error e => .error e
        | .ok dp =>
            .ok (Report.mk (commaFmt population) (commaFmt cs)
              (commaFmt ds) cp dp fp)

/-- The loop of `country_coronavirus_stats` (src/coronavirus.py lines
29-46) over the pandemic table's nodes, accumulating the `countries`
dictionary: matched anchors are skipped unless their link target starts
with `wikiPre`; for accepted anchors the two next `td` cells are parsed
and the enrichment runs; any raised error aborts the whole loop. -/
def build_loop (pl : String → Except PyError ℤ)
    (pf : String → Except PyError (Option String)) (m : String → Bool) :
    List Node → List (String × Report) → Except PyError (List (String × Report))
  | [], acc => .ok acc
  | .a t ho :: rest, acc =>
      if m t then
        match ho with
        | none => .error .attributeError
        | some hr =>
          if strStarts hr wikiPre then
            match nextTd rest with
            | none => .error .attributeError
            | some (c1, r1) =>
              match parseCell c1 with
              | none => .error .valueError
              | some cs =>
                match nextTd r1 with
                | none => .error .attributeError
                | some (c2, _) =>
                  match parseCell c2 with
                  | none => .error .valueError
                  | some ds =>
                    match enrichEntry pl pf t hr cs ds with
                    | .error e => .error e
                    | .ok r => build_loop pl pf m rest (dictInsert acc t r)
          else build_loop pl pf m rest acc
      else build_loop pl pf m rest acc
  | _ :: rest, acc => build_loop pl pf m rest acc

/-- `country_coronavirus_stats` (src/coronavirus.py lines 15-48) over a
given pandemic-table node list, enrichment oracles, and file system: run
the loop from the empty dictionary, then write the summary file; a raised
error aborts the run, leaving the file system unchanged. -/
def country_coronavirus_stats (pl : String → Except PyError ℤ)
    (pf : String → Except PyError (Option String)) (m : String → Bool)
    (doc : List Node) (fs : Fs) (term : String) : Fs × Option PyError :=
  match build_loop pl pf m doc [] with
  | .error e => (fs, some e)
  | .ok countries => create_summary_file fs term countries

/-- The texts of the matched anchors whose link target is accepted by the
2020-country-page filter, in document order. -/
def acceptedNames (m : String → Bool) : List Node → List String
  | [] => []
  | .a t (some hr) :: rest =>
      if m t && strStarts hr wikiPre then t :: acceptedNames m rest
      else acceptedNames m rest
  | .a _ none :: rest => acceptedNames m rest
  | _ :: rest => acceptedNames m rest

/-- Whether every matched anchor of the document carries a link target
(on the live page every anchor does); a matched anchor with no target
would make line 30's `None.startswith` raise `AttributeError`. -/
def matchedHaveHref (m : String → Bool) (doc : List Node) : Bool :=
  doc.all fun n =>
    match n with
    | .a t none => !(m t)
    | _ => true

/-- The keys of the dictionary model, in iteration order. -/
def keysOf (acc : List (String × Report)) : List String := acc.map Prod.fst

def memKey : List String → String → Bool
  | [], _ => false
  | k0 :: rest, k => k0 == k || memKey rest k

/-- Effect of one dictionary assignment on the key order: an existing key
keeps its position, a new key goes to the end. -/
def insKey (ks : List String) (k : String) : List String :=
  if memKey ks k then ks else ks ++ [k]

/-! ## Claims C1-C3: StatisticsCalculator -/

/-- Claim C1: for every positive integer population and every integer
count > 0, `calculate_per_100000_stat` returns
`round(count / (population / 100000), 1)`, the per-100,000 rate rounded to
one decimal place. -/
theorem claim_C1_rate_formula (p s : ℤ) (hp : 0 < p) (hs : 0 < s) :
    calculate_per_100000_stat p s =
      Except.ok (roundTo1 ((s : ℚ) / ((p : ℚ) / 100000))) := by
  have hq : ((p : ℚ) / 100000) ≠ 0 :=
    div_ne_zero (Int.cast_ne_zero.mpr (by omega)) (by norm_num)
  unfold calculate_per_100000_stat
  rw [if_neg (by omega), if_neg hq]

/-- Witness for C1: 100000 cases over population 50000000 give a rate of
200.0 per 100,000. -/
theorem claim_C1_rate_formula_witness :
    calculate_per_100000_stat 50000000 100000 = Except.ok 200 := by
  have h := claim_C1_rate_formula 50000000 100000 (by decide) (by decide)
  rw [h]
  with_unfolding_all decide

/-- Claim C2: for every population value (positive, zero or negative),
a zero count yields exactly 0.0; no division is performed on a zero
numerator. -/
theorem claim_C2_zero_count (p : ℤ) :
    calculate_per_100000_stat p 0 = Except.ok 0 := by
  simp [calculate_per_100000_stat]

/-- Counterexample to claim C3: at population -100000 and count 1 the code
returns the value -1.0 instead of failing with `InvalidInputError`. -/
theorem claim_C3_counterexample :
    calculate_per_100000_stat (-100000) 1 = Except.ok (-1) ∧
      (Except.ok (-1) : Except PyError ℚ) ≠
        Except.error PyError.invalidInputError := by
  constructor
  · with_unfolding_all decide
  · with_unfolding_all decide

/-- Claim C3 as amended: for a nonzero count, a zero population fails with
`ZeroDivisionError` (Python's unstructured division error, not the typed
`InvalidInputError` the specification names), while a strictly negative
population does not fail at all: the rounded (negative) rate is returned. -/
theorem claim_C3_nonpositive_population (s : ℤ) (hs : s ≠ 0) (p : ℤ) :
    (p = 0 → calculate_per_100000_stat p s =
        Except.error PyError.zeroDivisionError) ∧
    (p < 0 → calculate_per_100000_stat p s =
        Except.ok (roundTo1 ((s : ℚ) / ((p : ℚ) / 100000)))) := by
  constructor
  · intro hp
    subst hp
    unfold calculate_per_100000_stat
    rw [if_neg hs, if_pos (by norm_num)]
  · intro hp
    have hq : ((p : ℚ) / 100000) ≠ 0 :=
      div_ne_zero (Int.cast_ne_zero.mpr (by omega)) (by norm_num)
    unfold calculate_per_100000_stat
    rw [if_neg hs, if_neg hq]

/-- Witness for the amended C3: population 0 with count 1 raises
`ZeroDivisionError`. -/
theorem claim_C3_nonpositive_population_witness :
    calculate_per_100000_stat 0 1 = Except.error PyError.zeroDivisionError :=
  (claim_C3_nonpositive_population 1 (by decide) 0).1 rfl

/-! ## Claim C4: CountryRowExtractor -/

theorem extractEntries_other (m : String → Bool) (rest : List Node) :
    extractEntries m (Node.other :: rest) = extractEntries m rest := rfl

theorem extractEntries_td (m : String → Bool) (t : String) (rest : List Node) :
    extractEntries m (Node.td t :: rest) = extractEntries m rest := rfl

theorem extractEntries_nomatch (m : String → Bool) (t : String)
    (ho : Option String) (rest : List Node) (hm : m t = false) :
    extractEntries m (Node.a t ho :: rest) = extractEntries m rest := by
  simp [extractEntries, hm]

theorem extractEntries_rej (m : String → Bool) (t hr : String)
    (rest : List Node) (hm : m t = true) (hs : strStarts hr wikiPre = false) :
    extractEntries m (Node.a t (some hr) :: rest) = extractEntries m rest := by
  simp [extractEntries, hm, hs]

theorem extractEntries_hrefless (m : String → Bool) (t : String)
    (rest : List Node) (hm : m t = true) :
    extractEntries m (Node.a t none :: rest) = .error .attributeError := by
  simp [extractEntries, hm]

theorem extractEntries_td1_missing (m : String → Bool) (t hr : String)
    (rest : List Node) (hm : m t = true) (hs : strStarts hr wikiPre = true)
    (h1 : nextTd rest = none) :
    extractEntries m (Node.a t (some hr) :: rest) = .error .attributeError := by
  simp [extractEntries, hm, hs, h1]

theorem extractEntries_parse1_bad (m : String → Bool) (t hr c1 : String)
    (rest r1 : List Node) (hm : m t = true) (hs : strStarts hr wikiPre = true)
    (h1 : nextTd rest = some (c1, r1)) (hp1 : parseCell c1 = none) :
    extractEntries m (Node.a t (some hr) :: rest) = .error .valueError := by
  simp [extractEntries, hm, hs, h1, hp1]

theorem extractEntries_td2_missing (m : String → Bool) (t hr c1 : String)
    (rest r1 : List Node) (cs : ℤ) (hm : m t = true)
    (hs : strStarts hr wikiPre = true) (h1 : nextTd rest = some (c1, r1))
    (hp1 : parseCell c1 = some cs) (h2 : nextTd r1 = none) :
    extractEntries m (Node.a t (some hr) :: rest) = .error .attributeError := by
  simp [extractEntries, hm, hs, h1, hp1, h2]

theorem extractEntries_parse2_bad (m : String → Bool) (t hr c1 c2 : String)
    (rest r1 r2 : List Node) (cs : ℤ) (hm : m t = true)
    (hs : strStarts hr wikiPre = true) (h1 : nextTd rest = some (c1, r1))
    (hp1 : parseCell c1 = some cs) (h2 : nextTd r1 = some (c2, r2))
    (hp2 : parseCell c2 = none) :
    extractEntries m (Node.a t (some hr) :: rest) = .error .valueError := by
  simp [extractEntries, hm, hs, h1, hp1, h2, hp2]

theorem extractEntries_acc (m : String → Bool) (t hr c1 c2 : String)
    (rest r1 r2 : List Node) (cs ds : ℤ) (hm : m t = true)
    (hs : strStarts hr wikiPre = true) (h1 : nextTd rest = some (c1, r1))
    (hp1 : parseCell c1 = some cs) (h2 : nextTd r1 = some (c2, r2))
    (hp2 : parseCell c2 = some ds) :
    extractEntries m (Node.a t (some hr) :: rest) =
      (extractEntries m rest).map (fun es => CountryEntry.mk t cs ds hr :: es) := by
  simp [extractEntries, hm, hs, h1, hp1, h2, hp2]

/-- Every entry produced by `extractEntries` comes from an accepted
anchor: its link target starts with the 2020 country-page address
convention. -/
theorem extract_all_accepted (m : String → Bool) :
    ∀ (doc : List Node) (es : List CountryEntry),
      extractEntries m doc = .ok es →
      ∀ e ∈ es, strStarts e.href wikiPre = true := by
  intro doc
  induction doc with
  | nil =>
    intro es h e he
    cases h
    simp at he
  | cons n rest ih =>
    intro es h e he
    cases n with
    | other => exact ih es (by rwa [extractEntries_other] at h) e he
    | td t => exact ih es (by rwa [extractEntries_td] at h) e he
    | a t ho =>
      cases hm : m t with
      | false => exact ih es (by rwa [extractEntries_nomatch m t ho rest hm] at h) e he
      | true =>
        cases ho with
        | none => rw [extractEntries_hrefless m t rest hm] at h; cases h
        | some hr =>
          cases hs : strStarts hr wikiPre with
          | false => exact ih es (by rwa [extractEntries_rej m t hr rest hm hs] at h) e he
          | true =>
            cases h1 : nextTd rest with
            | none => rw [extractEntries_td1_missing m t hr rest hm hs h1] at h; cases h
            | some p1 =>
              obtain ⟨c1, r1⟩ := p1
              cases hp1 : parseCell c1 with
              | none => rw [extractEntries_parse1_bad m t hr c1 rest r1 hm hs h1 hp1] at h; cases h
              | some cs =>
                cases h2 : nextTd r1 with
                | none =>
                  rw [extractEntries_td2_missing m t hr c1 rest r1 cs hm hs h1 hp1 h2] at h
                  cases h
                | some p2 =>
                  obtain ⟨c2, r2⟩ := p2
                  cases hp2 : parseCell c2 with
                  | none =>
                    rw [extractEntries_parse2_bad m t hr c1 c2 rest r1 r2 cs hm hs h1 hp1 h2 hp2] at h
                    cases h
                  | some ds =>
                    rw [extractEntries_acc m t hr c1 c2 rest r1 r2 cs ds hm hs h1 hp1 h2 hp2] at h
                    cases hrec : extractEntries m rest with
                    | error e0 => rw [hrec] at h; cases h
                    | ok es0 =>
                      rw [hrec] at h
                      cases h
                      rcases List.mem_cons.mp he with he1 | he2
                      · subst he1; exact hs
                      · exact ih es0 hrec e he2

/-- An accepted, matched anchor with two parseable following cells always
contributes its entry to a successful extraction, wherever it sits in the
document. -/
theorem extract_mem (m : String → Bool) (name hr c1 c2 : String)
    (rest r1 r2 : List Node) (cs ds : ℤ)
    (hm : m name = true) (hs : strStarts hr wikiPre = true)
    (h1 : nextTd rest = some (c1, r1)) (hp1 : parseCell c1 = some cs)
    (h2 : nextTd r1 = some (c2, r2)) (hp2 : parseCell c2 = some ds) :
    ∀ (pre : List Node) (es : List CountryEntry),
      extractEntries m (pre ++ Node.a name (some hr) :: rest) = .ok es →
      CountryEntry.mk name cs ds hr ∈ es := by
  intro pre
  induction pre with
  | nil =>
    intro es h
    rw [List.nil_append,
      extractEntries_acc m name hr c1 c2 rest r1 r2 cs ds hm hs h1 hp1 h2 hp2] at h
    cases hrec : extractEntries m rest with
    | error e0 => rw [hrec] at h; cases h
    | ok es0 =>
      rw [hrec] at h
      cases h
      exact List.mem_cons_self _ _
  | cons n pre' ih =>
    intro es h
    rw [List.cons_append] at h
    cases n with
    | other => exact ih es (by rwa [extractEntries_other] at h)
    | td t => exact ih es (by rwa [extractEntries_td] at h)
    | a t ho =>
      cases hm' : m t with
      | false => exact ih es (by rwa [extractEntries_nomatch m t ho _ hm'] at h)
      | true =>
        cases ho with
        | none => rw [extractEntries_hrefless m t _ hm'] at h; cases h
        | some hr' =>
          cases hs' : strStarts hr' wikiPre with
          | false => exact ih es (by rwa [extractEntries_rej m t hr' _ hm' hs'] at h)
          | true =>
            cases hn1 : nextTd (pre' ++ Node.a name (some hr) :: rest) with
            | none => rw [extractEntries_td1_missing m t hr' _ hm' hs' hn1] at h; cases h
            | some q1 =>
              obtain ⟨d1, s1⟩ := q1
              cases hq1 : parseCell d1 with
              | none => rw [extractEntries_parse1_bad m t hr' d1 _ s1 hm' hs' hn1 hq1] at h; cases h
              | some cs' =>
                cases hn2 : nextTd s1 with
                | none =>
                  rw [extractEntries_td2_missing m t hr' d1 _ s1 cs' hm' hs' hn1 hq1 hn2] at h
                  cases h
                | some q2 =>
                  obtain ⟨d2, s2⟩ := q2
                  cases hq2 : parseCell d2 with
                  | none =>
                    rw [extractEntries_parse2_bad m t hr' d1 d2 _ s1 s2 cs' hm' hs' hn1 hq1 hn2 hq2] at h
                    cases h
                  | some ds' =>
                    rw [extractEntries_acc m t hr' d1 d2 _ s1 s2 cs' ds' hm' hs' hn1 hq1 hn2 hq2] at h
                    cases hrec : extractEntries m (pre' ++ Node.a name (some hr) :: rest) with
                    | error e0 => rw [hrec] at h; cases h
                    | ok es0 =>
                      rw [hrec] at h
                      cases h
                      exact List.mem_cons_of_mem _ (ih es0 hrec)

/-- Claim C4: in `extractEntries`, every entry of a successful extraction
comes from an anchor whose link target starts with the 2020
country-detail-page address convention (anchors failing the filter are
excluded), and every matched, accepted anchor whose two structurally-next
`td` cells parse (after comma stripping) as integers contributes the
entry with those cases and deaths counts. -/
theorem claim_C4_row_extraction (m : String → Bool) (doc : List Node)
    (es : List CountryEntry) (h : extractEntries m doc = .ok es) :
    (∀ e ∈ es, strStarts e.href wikiPre = true) ∧
    (∀ (pre : List Node) (name hr c1 c2 : String) (rest r1 r2 : List Node) (cs ds : ℤ),
        doc = pre ++ Node.a name (some hr) :: rest →
        m name = true →
        strStarts hr wikiPre = true →
        nextTd rest = some (c1, r1) →
        parseCell c1 = some cs →
        nextTd r1 = some (c2, r2) →
        parseCell c2 = some ds →
        CountryEntry.mk name cs ds hr ∈ es) := by
  constructor
  · exact extract_all_accepted m doc es h
  · intro pre name hr c1 c2 rest r1 r2 cs ds hdoc hm hs h1 hp1 h2 hp2
    subst hdoc
    exact extract_mem m name hr c1 c2 rest r1 r2 cs ds hm hs h1 hp1 h2 hp2 pre es h

/-- Witness for C4 on a concrete three-node document: the single accepted
anchor for Canada yields the entry with 100000 cases and 1000 deaths. -/
theorem claim_C4_row_extraction_witness :
    CountryEntry.mk "Canada" 100000 1000
        "/wiki/2020_coronavirus_pandemic_in_Canada" ∈
      [CountryEntry.mk "Canada" 100000 1000
        "/wiki/2020_coronavirus_pandemic_in_Canada"] :=
  (claim_C4_row_extraction (fun _ => true)
      [Node.a "Canada" (some "/wiki/2020_coronavirus_pandemic_in_Canada"),
        Node.td "100,000", Node.td "1,000"]
      [CountryEntry.mk "Canada" 100000 1000
        "/wiki/2020_coronavirus_pandemic_in_Canada"]
      (by decide)).2
    [] "Canada" "/wiki/2020_coronavirus_pandemic_in_Canada" "100,000" "1,000"
    [Node.td "100,000", Node.td "1,000"] [Node.td "1,000"] [] 100000 1000
    rfl rfl (by decide) rfl (by decide) rfl (by decide)

/-! ## Claim C6: SummaryParagraphFetcher -/

theorem pMatches_iff (s : String) : pMatches s = true ↔ pQualifies s := by
  obtain ⟨cs⟩ := s
  cases cs with
  | nil => simp [pMatches, pQualifies]
  | cons c rest => simp [pMatches, pQualifies]

/-- Counterexample to claim C6: the paragraph text consisting of a space
and a newline is purely whitespace, yet `get_first_paragraph` returns it
instead of skipping it. -/
theorem claim_C6_counterexample :
    get_first_paragraph [" \n"] = some " \n" ∧
      (" \n").data.all (fun c => c.isWhitespace) = true := by
  exact ⟨by decide, by decide⟩

/-- Claim C6 as amended: `get_first_paragraph` scans paragraphs in
document order and returns the text of the first paragraph matching
`..*\n`, i.e. whose text starts with a non-newline character and has a
newline after it (not, as the specification says, the first paragraph
that is not purely whitespace); when no paragraph qualifies it returns
`none` rather than failing. -/
theorem claim_C6_first_paragraph (paras pre : List String) (t : String)
    (post : List String) :
    (get_first_paragraph paras = none ↔ ∀ p ∈ paras, ¬ pQualifies p) ∧
    ((∀ p ∈ pre, ¬ pQualifies p) → pQualifies t →
      get_first_paragraph (pre ++ t :: post) = some t) ∧
    (∀ t2, get_first_paragraph paras = some t2 → t2 ∈ paras ∧ pQualifies t2) := by
  refine ⟨?_, ?_, ?_⟩
  · rw [get_first_paragraph, List.find?_eq_none]
    constructor
    · intro h p hp hq
      exact h p hp ((pMatches_iff p).mpr hq)
    · intro h p hp hb
      exact h p hp ((pMatches_iff p).mp hb)
  · intro hpre ht
    induction pre with
    | nil =>
      rw [List.nil_append, get_first_paragraph,
        List.find?_cons_of_pos _ ((pMatches_iff t).mpr ht)]
    | cons q pre' ih =>
      rw [List.cons_append, get_first_paragraph, List.find?_cons_of_neg]
      · exact ih (fun p hp => hpre p (List.mem_cons_of_mem q hp))
      · intro hb
        exact hpre q (List.mem_cons_self q pre') ((pMatches_iff q).mp hb)
  · intro t2 h
    rw [get_first_paragraph] at h
    exact ⟨List.mem_of_find?_eq_some h, (pMatches_iff t2).mp (List.find?_some h)⟩

/-- Witness for the amended C6: a paragraph with no newline is skipped
and the following qualifying paragraph is returned. -/
theorem claim_C6_first_paragraph_witness :
    get_first_paragraph (["ab"] ++ "Hi.\n" :: []) = some "Hi.\n" :=
  (claim_C6_first_paragraph [] ["ab"] "Hi.\n" []).2.1 (by decide) (by decide)

/-! ## Claim C5: PopulationLookup -/

/-- Counterexample to claim C5: on a population document whose first
table has no matching anchor, `get_population` raises `IndexError` (the
unstructured error from `country_row[0]` on an empty list), not the typed
`NotFoundError` the claim requires. -/
theorem claim_C5_counterexample :
    get_population (fun _ => true) [[Node.td "5"]] =
        Except.error PyError.indexError ∧
      PyError.indexError ≠ PyError.notFoundError := by
  exact ⟨by decide, by decide⟩

/-- Claim C5 as amended: `get_population` returns the comma-stripped
integer value of the next `td` cell after the first anchor of the first
table whose text matches the country regex, and fails with `IndexError`
(an unstructured builtin error, not `NotFoundError`) when no anchor
matches. -/
theorem claim_C5_population_lookup (m : String → Bool) (table : List Node)
    (docRest : List (List Node)) (nm : String) (ho : Option String)
    (tl : List Node) (more : List (String × Option String × List Node))
    (ct : String) (cr : List Node) (v : ℤ) :
    (anchorsMatched m table = [] →
      get_population m (table :: docRest) = Except.error PyError.indexError) ∧
    (anchorsMatched m table = (nm, ho, tl) :: more →
      nextTd tl = some (ct, cr) →
      parseCell ct = some v →
      get_population m (table :: docRest) = Except.ok v) := by
  constructor
  · intro h0
    simp [get_population, h0]
  · intro h0 h1 h2
    simp [get_population, h0, h1, h2]

/-- Witness for the amended C5: the cell after the anchor matching
Canada parses, separators stripped, to the population 38000000. -/
theorem claim_C5_population_lookup_witness :
    get_population (fun _ => true)
        [[Node.a "Canada" none, Node.td "38,000,000"]] = Except.ok 38000000 :=
  (claim_C5_population_lookup (fun _ => true)
      [Node.a "Canada" none, Node.td "38,000,000"] [] "Canada" none
      [Node.td "38,000,000"] [] "38,000,000" [] 38000000).2
    (by decide) rfl (by decide)

/-! ## Claims C7-C10: ReportAssembler and output -/

theorem build_loop_other (pl : String → Except PyError ℤ)
    (pf : String → Except PyError (Option String)) (m : String → Bool)
    (rest : List Node) (acc : List (String × Report)) :
    build_loop pl pf m (Node.other :: rest) acc = build_loop pl pf m rest acc := rfl

theorem build_loop_td (pl : String → Except PyError ℤ)
    (pf : String → Except PyError (Option String)) (m : String → Bool)
    (t : String) (rest : List Node) (acc : List (String × Report)) :
    build_loop pl pf m (Node.td t :: rest) acc = build_loop pl pf m rest acc := rfl

theorem build_loop_nomatch (pl : String → Except PyError ℤ)
    (pf : String → Except PyError (Option String)) (m : String → Bool)
    (t : String) (ho : Option String) (rest : List Node)
    (acc : List (String × Report)) (hm : m t = false) :
    build_loop pl pf m (Node.a t ho :: rest) acc = build_loop pl pf m rest acc := by
  simp [build_loop, hm]

theorem build_loop_hrefless (pl : String → Except PyError ℤ)
    (pf : String → Except PyError (Option String)) (m : String → Bool)
    (t : String) (rest : List Node) (acc : List (String × Report))
    (hm : m t = true) :
    build_loop pl pf m (Node.a t none :: rest) acc = .error .attributeError := by
  simp [build_loop, hm]

theorem build_loop_rej (pl : String → Except PyError ℤ)
    (pf : String → Except PyError (Option String)) (m : String → Bool)
    (t hr : String) (rest : List Node) (acc : List (String × Report))
    (hm : m t = true) (hs : strStarts hr wikiPre = false) :
    build_loop pl pf m (Node.a t (some hr) :: rest) acc = build_loop pl pf m rest acc := by
  simp [build_loop, hm, hs]

theorem build_loop_td1_missing (pl : String → Except PyError ℤ)
    (pf : String → Except PyError (Option String)) (m : String → Bool)
    (t hr : String) (rest : List Node) (acc : List (String × Report))
    (hm : m t = true) (hs : strStarts hr wikiPre = true)
    (h1 : nextTd rest = none) :
    build_loop pl pf m (Node.a t (some hr) :: rest) acc = .error .attributeError := by
  simp [build_loop, hm, hs, h1]

theorem build_loop_parse1_bad (pl : String → Except PyError ℤ)
    (pf : String → Except PyError (Option String)) (m : String → Bool)
    (t hr c1 : String) (rest r1 : List Node) (acc : List (String × Report))
    (hm : m t = true) (hs : strStarts hr wikiPre = true)
    (h1 : nextTd rest = some (c1, r1)) (hp1 : parseCell c1 = none) :
    build_loop pl pf m (Node.a t (some hr) :: rest) acc = .error .valueError := by
  simp [build_loop, hm, hs, h1, hp1]

theorem build_loop_td2_missing (pl : String → Except PyError ℤ)
    (pf : String → Except PyError (Option String)) (m : String → Bool)
    (t hr c1 : String) (rest r1 : List Node) (acc : List (String × Report))
    (cs : ℤ) (hm : m t = true) (hs : strStarts hr wikiPre = true)
    (h1 : nextTd rest = some (c1, r1)) (hp1 : parseCell c1 = some cs)
    (h2 : nextTd r1 = none) :
    build_loop pl pf m (Node.a t (some hr) :: rest) acc = .error .attributeError := by
  simp [build_loop, hm, hs, h1, hp1, h2]

theorem build_loop_parse2_bad (pl : String → Except PyError ℤ)
    (pf : String → Except PyError (Option String)) (m : String → Bool)
    (t hr c1 c2 : String) (rest r1 r2 : List Node) (acc : List (String × Report))
    (cs : ℤ) (hm : m t = true) (hs : strStarts hr wikiPre = true)
    (h1 : nextTd rest = some (c1, r1)) (hp1 : parseCell c1 = some cs)
    (h2 : nextTd r1 = some (c2, r2)) (hp2 : parseCell c2 = none) :
    build_loop pl pf m (Node.a t (some hr) :: rest) acc = .error .valueError := by
  simp [build_loop, hm, hs, h1, hp1, h2, hp2]

theorem build_loop_enrich_fail (pl : String → Except PyError ℤ)
    (pf : String → Except PyError (Option String)) (m : String → Bool)
    (t hr c1 c2 : String) (rest r1 r2 : List Node) (acc : List (String × Report))
    (cs ds : ℤ) (e : PyError) (hm : m t = true)
    (hs : strStarts hr wikiPre = true)
    (h1 : nextTd rest = some (c1, r1)) (hp1 : parseCell c1 = some cs)
    (h2 : nextTd r1 = some (c2, r2)) (hp2 : parseCell c2 = some ds)
    (he : enrichEntry pl pf t hr cs ds = .error e) :
    build_loop pl pf m (Node.a t (some hr) :: rest) acc = .error e := by
  simp [build_loop, hm, hs, h1, hp1, h2, hp2, he]

theorem build_loop_step (pl : String → Except PyError ℤ)
    (pf : String → Except PyError (Option String)) (m : String → Bool)
    (t hr c1 c2 : String) (rest r1 r2 : List Node) (acc : List (String × Report))
    (cs ds : ℤ) (r : Report) (hm : m t = true)
    (hs : strStarts hr wikiPre = true)
    (h1 : nextTd rest = some (c1, r1)) (hp1 : parseCell c1 = some cs)
    (h2 : nextTd r1 = some (c2, r2)) (hp2 : parseCell c2 = some ds)
    (he : enrichEntry pl pf t hr cs ds = .ok r) :
    build_loop pl pf m (Node.a t (some hr) :: rest) acc =
      build_loop pl pf m rest (dictInsert acc t r) := by
  simp [build_loop, hm, hs, h1, hp1, h2, hp2, he]

theorem enrich_pf_fail (pl : String → Except PyError ℤ)
    (pf : String → Except PyError (Option String)) (name hr : String)
    (cs ds : ℤ) (e : PyError)
    (hpf : pf (urljoin wikiBase hr) = .error e) :
    enrichEntry pl pf name hr cs ds = .error e := by
  simp [enrichEntry, hpf]

theorem enrich_pl_fail (pl : String → Except PyError ℤ)
    (pf : String → Except PyError (Option String)) (name hr : String)
    (cs ds : ℤ) (fp : Option String) (e : PyError)
    (hpf : pf (urljoin wikiBase hr) = .ok fp) (hpl : pl name = .error e) :
    enrichEntry pl pf name hr cs ds = .error e := by
  simp [enrichEntry, hpf, hpl]

/-- Counterexample to claim C7: the population lookup fails for the
first matched country (Aland) while succeeding for the second (Brazil);
the whole run aborts with that error and the resulting state holds no
record for Brazil (no file is written at all). -/
theorem claim_C7_counterexample :
    country_coronavirus_stats
        (fun n => if n == "Aland" then .error .indexError else .ok 100000)
        (fun _ => .ok none) (fun _ => true)
        [Node.a "Aland" (some "/wiki/2020_coronavirus_pandemic_in_Aland"),
          Node.td "10", Node.td "1",
          Node.a "Brazil" (some "/wiki/2020_coronavirus_pandemic_in_Brazil"),
          Node.td "20", Node.td "2"]
        [] "a" = ([], some PyError.indexError) ∧
      (fun n => if n == "Aland" then (Except.error PyError.indexError : Except PyError ℤ)
        else .ok 100000) "Brazil" = .ok 100000 := by
  exact ⟨by with_unfolding_all decide, by decide⟩

/-- Claim C7 as amended: a failure of the paragraph fetch or of the
population lookup for a matched, accepted country aborts the entire run:
the error becomes the run's error, the remaining countries are never
processed, and the file system is left unchanged (no report file). -/
theorem claim_C7_failure_aborts (pl : String → Except PyError ℤ)
    (pf : String → Except PyError (Option String)) (m : String → Bool)
    (name hr c1 c2 : String) (rest r1 r2 : List Node) (cs ds : ℤ)
    (fs : Fs) (term : String) (e : PyError)
    (hm : m name = true) (hs : strStarts hr wikiPre = true)
    (h1 : nextTd rest = some (c1, r1)) (hp1 : parseCell c1 = some cs)
    (h2 : nextTd r1 = some (c2, r2)) (hp2 : parseCell c2 = some ds)
    (hfail : pf (urljoin wikiBase hr) = .error e ∨
      ∃ fp, pf (urljoin wikiBase hr) = .ok fp ∧ pl name = .error e) :
    country_coronavirus_stats pl pf m (Node.a name (some hr) :: rest) fs term =
      (fs, some e) := by
  have henr : enrichEntry pl pf name hr cs ds = .error e := by
    rcases hfail with hpf | ⟨fp, hpf, hpl⟩
    · exact enrich_pf_fail pl pf name hr cs ds e hpf
    · exact enrich_pl_fail pl pf name hr cs ds fp e hpf hpl
  have hb := build_loop_enrich_fail pl pf m name hr c1 c2 rest r1 r2 []
    cs ds e hm hs h1 hp1 h2 hp2 henr
  simp [country_coronavirus_stats, hb]

/-- Witness for the amended C7: a failing population lookup for the only
matched country turns into the run's error and no file is created. -/
theorem claim_C7_failure_aborts_witness :
    country_coronavirus_stats (fun _ => .error .indexError)
        (fun _ => .ok none) (fun _ => true)
        [Node.a "Aland" (some "/wiki/2020_coronavirus_pandemic_in_Aland"),
          Node.td "10", Node.td "1"]
        [] "x" = ([], some PyError.indexError) :=
  claim_C7_failure_aborts (fun _ => .error .indexError) (fun _ => .ok none)
    (fun _ => true) "Aland" "/wiki/2020_coronavirus_pandemic_in_Aland"
    "10" "1" [Node.td "10", Node.td "1"] [Node.td "1"] [] 10 1 [] "x"
    PyError.indexError rfl (by decide) rfl (by decide) rfl (by decide)
    (Or.inr ⟨none, rfl, rfl⟩)

/-- Claim C8: the summary file is created fresh (exclusive-creation mode
`'x'`): when no file of the name exists it is created with the rendered
contents, and when one exists the run fails with `FileExistsError` and
the file system, including the existing file, is unchanged. -/
theorem claim_C8_exclusive_creation (fs : Fs) (term : String)
    (countries : List (String × Report)) :
    (lookupFs fs (term ++ "summary.txt") = none →
      create_summary_file fs term countries =
        (writeFs fs (term ++ "summary.txt") (renderAll countries), none)) ∧
    (∀ c, lookupFs fs (term ++ "summary.txt") = some c →
      create_summary_file fs term countries = (fs, some PyError.fileExistsError)) := by
  constructor
  · intro h
    simp [create_summary_file, h]
  · intro c h
    simp [create_summary_file, h]

/-- Witness for C8: with `asummary.txt` already present, the run fails
with `FileExistsError` and the file system is unchanged. -/
theorem claim_C8_exclusive_creation_witness :
    create_summary_file [("asummary.txt", "old")] "a" [] =
      ([("asummary.txt", "old")], some PyError.fileExistsError) :=
  (claim_C8_exclusive_creation [("asummary.txt", "old")] "a" []).2 "old" (by decide)

theorem keysOf_cons (p : String × Report) (rest : List (String × Report)) :
    keysOf (p :: rest) = p.1 :: keysOf rest := rfl

theorem hasKey_cons (p : String × Report) (rest : List (String × Report))
    (k : String) : hasKey (p :: rest) k = (p.1 == k || hasKey rest k) := rfl

theorem memKey_cons (k0 : String) (ks : List String) (k : String) :
    memKey (k0 :: ks) k = (k0 == k || memKey ks k) := rfl

theorem lookupKey_cons (p : String × Report) (rest : List (String × Report))
    (k : String) :
    lookupKey (p :: rest) k = if p.1 == k then some p.2 else lookupKey rest k := rfl

theorem hasKey_eq_memKey (acc : List (String × Report)) (k : String) :
    hasKey acc k = memKey (keysOf acc) k := by
  induction acc with
  | nil => rfl
  | cons p rest ih => rw [hasKey_cons, keysOf_cons, memKey_cons, ih]

theorem overwriteVal_fst (k : String) (v : Report) (p : String × Report) :
    (overwriteVal k v p).1 = p.1 := by
  rw [overwriteVal]
  cases hb : p.1 == k with
  | true =>
    rw [if_pos rfl]
    exact (eq_of_beq hb).symm
  | false => rw [if_neg (by simp)]

theorem keysOf_map_overwrite (k : String) (v : Report)
    (acc : List (String × Report)) :
    keysOf (acc.map (overwriteVal k v)) = keysOf acc := by
  induction acc with
  | nil => rfl
  | cons p rest ih =>
    rw [List.map_cons, keysOf_cons, keysOf_cons, overwriteVal_fst, ih]

theorem keysOf_append_new (k : String) (v : Report)
    (acc : List (String × Report)) :
    keysOf (acc ++ [(k, v)]) = keysOf acc ++ [k] := by
  simp [keysOf]

theorem keysOf_dictInsert (acc : List (String × Report)) (k : String) (v : Report) :
    keysOf (dictInsert acc k v) = insKey (keysOf acc) k := by
  rw [dictInsert, insKey, hasKey_eq_memKey]
  cases hmem : memKey (keysOf acc) k with
  | true => rw [if_pos rfl, if_pos rfl, keysOf_map_overwrite]
  | false =>
    rw [if_neg (by simp), if_neg (by simp), keysOf_append_new]

theorem memKey_iff (ks : List String) (k : String) :
    memKey ks k = true ↔ k ∈ ks := by
  induction ks with
  | nil => simp [memKey]
  | cons k0 rest ih =>
    rw [memKey_cons]
    simp only [Bool.or_eq_true, beq_iff_eq, ih, List.mem_cons]
    constructor
    · rintro (h | h)
      · exact Or.inl h.symm
      · exact Or.inr h
    · rintro (h | h)
      · exact Or.inl h.symm
      · exact Or.inr h

theorem insKey_nodup (ks : List String) (k : String) (h : ks.Nodup) :
    (insKey ks k).Nodup := by
  rw [insKey]
  cases hmem : memKey ks k with
  | true =>
    rw [if_pos rfl]
    exact h
  | false =>
    rw [if_neg (by simp)]
    have hk : k ∉ ks := fun hc => by
      rw [(memKey_iff ks k).mpr hc] at hmem
      cases hmem
    refine List.Nodup.append h (List.nodup_singleton k) ?_
    intro a ha hb
    rw [List.mem_singleton] at hb
    subst hb
    exact hk ha

theorem foldl_insKey_nodup (names : List String) :
    ∀ ks : List String, ks.Nodup → (names.foldl insKey ks).Nodup := by
  induction names with
  | nil => intro ks h; simpa using h
  | cons n rest ih => intro ks h; exact ih (insKey ks n) (insKey_nodup ks n h)

theorem acceptedNames_other (m : String → Bool) (rest : List Node) :
    acceptedNames m (Node.other :: rest) = acceptedNames m rest := rfl

theorem acceptedNames_td (m : String → Bool) (t : String) (rest : List Node) :
    acceptedNames m (Node.td t :: rest) = acceptedNames m rest := rfl

theorem acceptedNames_anone (m : String → Bool) (t : String) (rest : List Node) :
    acceptedNames m (Node.a t none :: rest) = acceptedNames m rest := rfl

theorem acceptedNames_asome (m : String → Bool) (t hr : String) (rest : List Node) :
    acceptedNames m (Node.a t (some hr) :: rest) =
      if m t && strStarts hr wikiPre then t :: acceptedNames m rest
      else acceptedNames m rest := rfl

/-- The keys of a successful run of the loop: the accepted names folded
onto the starting keys by the dictionary-assignment key order. -/
theorem build_loop_keys (pl : String → Except PyError ℤ)
    (pf : String → Except PyError (Option String)) (m : String → Bool) :
    ∀ (doc : List Node) (acc out : List (String × Report)),
      build_loop pl pf m doc acc = .ok out →
      keysOf out = (acceptedNames m doc).foldl insKey (keysOf acc) := by
  intro doc
  induction doc with
  | nil =>
    intro acc out h
    cases h
    rfl
  | cons n rest ih =>
    intro acc out h
    cases n with
    | other =>
      rw [acceptedNames_other]
      exact ih acc out (by rwa [build_loop_other] at h)
    | td t =>
      rw [acceptedNames_td]
      exact ih acc out (by rwa [build_loop_td] at h)
    | a t ho =>
      cases hm : m t with
      | false =>
        have hskip := ih acc out (by rwa [build_loop_nomatch pl pf m t ho rest acc hm] at h)
        cases ho with
        | none => rwa [acceptedNames_anone]
        | some hr =>
          rw [acceptedNames_asome, hm]
          rw [if_neg (by simp)]
          exact hskip
      | true =>
        cases ho with
        | none => rw [build_loop_hrefless pl pf m t rest acc hm] at h; cases h
        | some hr =>
          rw [acceptedNames_asome, hm]
          cases hs : strStarts hr wikiPre with
          | false =>
            rw [if_neg (by simp [hs])]
            exact ih acc out (by rwa [build_loop_rej pl pf m t hr rest acc hm hs] at h)
          | true =>
            rw [if_pos (by simp [hs])]
            cases h1 : nextTd rest with
            | none => rw [build_loop_td1_missing pl pf m t hr rest acc hm hs h1] at h; cases h
            | some p1 =>
              obtain ⟨c1, r1⟩ := p1
              cases hp1 : parseCell c1 with
              | none => rw [build_loop_parse1_bad pl pf m t hr c1 rest r1 acc hm hs h1 hp1] at h; cases h
              | some cs =>
                cases h2 : nextTd r1 with
                | none =>
                  rw [build_loop_td2_missing pl pf m t hr c1 rest r1 acc cs hm hs h1 hp1 h2] at h
                  cases h
                | some p2 =>
                  obtain ⟨c2, r2⟩ := p2
                  cases hp2 : parseCell c2 with
                  | none =>
                    rw [build_loop_parse2_bad pl pf m t hr c1 c2 rest r1 r2 acc cs hm hs h1 hp1 h2 hp2] at h
                    cases h
                  | some ds =>
                    cases henr : enrichEntry pl pf t hr cs ds with
                    | error e =>
                      rw [build_loop_enrich_fail pl pf m t hr c1 c2 rest r1 r2 acc cs ds e hm hs h1 hp1 h2 hp2 henr] at h
                      cases h
                    | ok r =>
                      rw [build_loop_step pl pf m t hr c1 c2 rest r1 r2 acc cs ds r hm hs h1 hp1 h2 hp2 henr] at h
                      have hk := ih (dictInsert acc t r) out h
                      rw [hk, keysOf_dictInsert]
                      rfl

theorem lookupKey_map_overwrite (k : String) (v : Report) :
    ∀ acc : List (String × Report), hasKey acc k = true →
      lookupKey (acc.map (overwriteVal k v)) k = some v := by
  intro acc
  induction acc with
  | nil => intro h; cases h
  | cons p rest ih =>
    intro h
    rw [List.map_cons, lookupKey_cons]
    cases hb : p.1 == k with
    | true =>
      have hov : overwriteVal k v p = (k, v) := by rw [overwriteVal, if_pos hb]
      rw [hov]
      simp
    | false =>
      have hov : overwriteVal k v p = p := by rw [overwriteVal, if_neg (by simp [hb])]
      rw [hov, if_neg (by simp [hb])]
      refine ih ?_
      rw [hasKey_cons, hb] at h
      simpa using h

theorem lookupKey_append_new (k : String) (v : Report) :
    ∀ acc : List (String × Report), hasKey acc k = false →
      lookupKey (acc ++ [(k, v)]) k = some v := by
  intro acc
  induction acc with
  | nil =>
    intro h
    rw [List.nil_append, lookupKey_cons]
    simp
  | cons p rest ih =>
    intro h
    rw [List.cons_append, lookupKey_cons]
    have hb : (p.1 == k) = false := by
      cases hpb : p.1 == k
      · rfl
      · rw [hasKey_cons, hpb] at h; simp at h
    rw [if_neg (by simp [hb])]
    refine ih ?_
    rw [hasKey_cons, hb] at h
    simpa using h

theorem lookupKey_dictInsert (acc : List (String × Report)) (k : String) (v : Report) :
    lookupKey (dictInsert acc k v) k = some v := by
  rw [dictInsert]
  cases hk : hasKey acc k with
  | true =>
    rw [if_pos rfl]
    exact lookupKey_map_overwrite k v acc hk
  | false =>
    rw [if_neg (by simp)]
    exact lookupKey_append_new k v acc hk

/-- Counterexample to claim C9: the same country name appears twice as an
accepted anchor with different data; the resulting dictionary holds the
data of the LAST occurrence (cases "20", deaths "2"), not the first
("10", "1"), so the first match does not win. -/
theorem claim_C9_counterexample :
    build_loop (fun _ => .ok 100000) (fun _ => .ok none) (fun _ => true)
        [Node.a "Aland" (some "/wiki/2020_coronavirus_pandemic_in_Aland"),
          Node.td "10", Node.td "1",
          Node.a "Aland" (some "/wiki/2020_coronavirus_pandemic_in_Aland"),
          Node.td "20", Node.td "2"] [] =
      Except.ok [("Aland", Report.mk "100,000" "20" "2" 20 2 none)] ∧
    Report.mk "100,000" "20" "2" 20 2 none ≠
      Report.mk "100,000" "10" "1" 10 1 none := by
  exact ⟨by with_unfolding_all decide, by with_unfolding_all decide⟩

/-- Claim C9 as amended: on a successful run, the `countries` dictionary
iterates its keys in the order the countries FIRST appear as accepted
anchors, and each name occurs at most once; but when a name recurs, the
later assignment overwrites the stored record (last match wins for the
data) while keeping the first occurrence's position. -/
theorem claim_C9_report_set_order (pl : String → Except PyError ℤ)
    (pf : String → Except PyError (Option String)) (m : String → Bool)
    (doc : List Node) (out : List (String × Report))
    (h : build_loop pl pf m doc [] = .ok out) :
    keysOf out = (acceptedNames m doc).foldl insKey [] ∧
    (keysOf out).Nodup ∧
    ∀ (acc : List (String × Report)) (k : String) (v : Report),
      keysOf (dictInsert acc k v) = insKey (keysOf acc) k ∧
      lookupKey (dictInsert acc k v) k = some v := by
  have hkeys := build_loop_keys pl pf m doc [] out h
  refine ⟨hkeys, ?_, ?_⟩
  · rw [hkeys]
    exact foldl_insKey_nodup _ [] List.nodup_nil
  · intro acc k v
    exact ⟨keysOf_dictInsert acc k v, lookupKey_dictInsert acc k v⟩

/-- Witness for the amended C9 at a one-country document. -/
theorem claim_C9_report_set_order_witness :
    keysOf [("Aland", Report.mk "100,000" "10" "1" 10 1 none)] = ["Aland"] := by
  have h := claim_C9_report_set_order (fun _ => .ok 100000) (fun _ => .ok none)
    (fun _ => true)
    [Node.a "Aland" (some "/wiki/2020_coronavirus_pandemic_in_Aland"),
      Node.td "10", Node.td "1"]
    [("Aland", Report.mk "100,000" "10" "1" 10 1 none)]
    (by with_unfolding_all decide)
  rw [h.1]
  decide

/-- When no matched anchor is accepted (and every matched anchor carries
a link target), the loop adds nothing to the dictionary. -/
theorem build_loop_no_accepted (pl : String → Except PyError ℤ)
    (pf : String → Except PyError (Option String)) (m : String → Bool) :
    ∀ (doc : List Node) (acc : List (String × Report)),
      acceptedNames m doc = [] → matchedHaveHref m doc = true →
      build_loop pl pf m doc acc = .ok acc := by
  intro doc
  induction doc with
  | nil => intro acc _ _; rfl
  | cons n rest ih =>
    intro acc hacc hh
    have hh' : matchedHaveHref m rest = true := by
      rw [matchedHaveHref, List.all_cons] at hh
      exact (Bool.and_eq_true_iff.mp hh).2
    cases n with
    | other =>
      rw [build_loop_other]
      exact ih acc (by rwa [acceptedNames_other] at hacc) hh'
    | td t =>
      rw [build_loop_td]
      exact ih acc (by rwa [acceptedNames_td] at hacc) hh'
    | a t ho =>
      cases ho with
      | none =>
        have hm : m t = false := by
          rw [matchedHaveHref, List.all_cons] at hh
          have h0 := (Bool.and_eq_true_iff.mp hh).1
          simpa using h0
        rw [build_loop_nomatch pl pf m t none rest acc hm]
        exact ih acc (by rwa [acceptedNames_anone] at hacc) hh'
      | some hr =>
        rw [acceptedNames_asome] at hacc
        cases hm : m t with
        | false =>
          rw [build_loop_nomatch pl pf m t (some hr) rest acc hm]
          refine ih acc ?_ hh'
          rw [hm] at hacc
          rwa [if_neg (by simp)] at hacc
        | true =>
          cases hs : strStarts hr wikiPre with
          | false =>
            rw [build_loop_rej pl pf m t hr rest acc hm hs]
            refine ih acc ?_ hh'
            rw [hm, hs] at hacc
            rwa [if_neg (by simp)] at hacc
          | true =>
            rw [hm, hs] at hacc
            rw [if_pos (by simp)] at hacc
            cases hacc

/-- Claim C10: when the search term matches no accepted country anchor
(and, as on the live page, every matched anchor carries a link target),
and no file of the output name exists, the run succeeds: no error is
raised and `{search_term}summary.txt` is created with empty contents. -/
theorem claim_C10_no_match_empty_file (pl : String → Except PyError ℤ)
    (pf : String → Except PyError (Option String)) (m : String → Bool)
    (doc : List Node) (fs : Fs) (term : String)
    (hacc : acceptedNames m doc = [])
    (hh : matchedHaveHref m doc = true)
    (hfs : lookupFs fs (term ++ "summary.txt") = none) :
    country_coronavirus_stats pl pf m doc fs term =
      (writeFs fs (term ++ "summary.txt") "", none) := by
  have hb := build_loop_no_accepted pl pf m doc [] hacc hh
  simp only [country_coronavirus_stats, hb]
  simp [create_summary_file, hfs, renderAll]

/-- Witness for C10: a term matching only a non-country anchor yields an
empty `canadasummary.txt` and no error. -/
theorem claim_C10_no_match_empty_file_witness :
    country_coronavirus_stats (fun _ => .error .indexError)
        (fun _ => .ok none) (fun _ => true)
        [Node.a "Borduria" (some "/wiki/Borduria"), Node.td "9"]
        [] "canada" = ([("canadasummary.txt", "")], none) := by
  have h := claim_C10_no_match_empty_file (fun _ => .error .indexError)
    (fun _ => .ok none) (fun _ => true)
    [Node.a "Borduria" (some "/wiki/Borduria"), Node.td "9"]
    [] "canada" (by decide) (by decide) (by decide)
  rw [h]
  decide
